import Mathlib

/-!
Verification development for the SoccerNet-MOT → YOLO dataset conversion
pipeline (`src/datasets/faster_split.py`, with `src/datasets/split.py` as the
earlier variant of the same logic).  The Python code is shallowly embedded:
pure fragments become Lean functions, dictionaries become association lists,
Python `int` becomes `ℤ`/`ℕ`, and the box arithmetic (done in IEEE doubles in
Python) is embedded over `ℚ`; the one place where double rounding is
observable — `int(total_frames * TRAIN_RATIO)` — is embedded with exact
IEEE-754 round-to-nearest-even semantics over `ℕ`.
-/

set_option autoImplicit false

/-- an association-list lookup returning the first value bound to a key,
modelling Python `dict.get` (keys in the embedded tables are unique). -/
def assocFind {κ α : Type} [DecidableEq κ] : List (κ × α) → κ → Option α
  | [], _ => none
  | (k, v) :: rest, n => if k = n then some v else assocFind rest n

/-- left-biased choice on `Option`, modelling "use the first lookup if it
hit, otherwise fall back" (Python `d.get(k, default)` chains). -/
def oElse {α : Type} (a b : Option α) : Option α :=
  match a with
  | some x => some x
  | none => b

/-- per-sequence class lists, modelling one value of the `ID_MAPPINGS`
dictionaries.  The Python dicts carry the keys `"referee"`, `"ball"`,
`"goalkeeper"` in that insertion order and never a `"player"` key; the
`player` field below is therefore `[]` for every embedded table and stands
for `mapping.get("player", [])`. -/
structure ClassLists where
  referee : List ℤ
  ball : List ℤ
  goalkeeper : List ℤ
  player : List ℤ := []
  deriving DecidableEq

/-- the `CLASS_NAMES` list of `faster_split.py` (also the list indexed by
`.index(cls)` in `split.py`). -/
def CLASS_NAMES : List String := ["player", "goalkeeper", "referee", "ball"]

/-- `CLASS_MAP.get(cls_name, CLASS_MAP["player"])`: position of a class name
in `CLASS_NAMES`, defaulting to the player index 0 for unknown names. -/
def classMapGet (s : String) : ℕ :=
  let i := List.findIdx (fun c => c == s) CLASS_NAMES
  if i < CLASS_NAMES.length then i else 0

/-- `["player", "goalkeeper", "referee", "ball"].index(cls)` as used in
`split.py` (every argument it is applied to occurs in the list). -/
def classIndexOf (s : String) : ℕ :=
  List.findIdx (fun c => c == s) CLASS_NAMES

/-- the `ID_MAPPINGS` table of `faster_split.py`, transcribed entry by
entry (sequence name → per-class track-id lists). -/
def ID_MAPPINGS : List (String × ClassLists) :=
  [ ("SNMOT-060", { referee := [14, 17, 26], ball := [18], goalkeeper := [22, 25] }),
    ("SNMOT-061", { referee := [3, 4, 26], ball := [1], goalkeeper := [2, 25] }),
    ("SNMOT-062", { referee := [18, 23], ball := [19], goalkeeper := [17] }),
    ("SNMOT-063", { referee := [8, 18], ball := [19], goalkeeper := [1, 25] }),
    ("SNMOT-064", { referee := [21, 22], ball := [23], goalkeeper := [24] }),
    ("SNMOT-065", { referee := [22, 23], ball := [21], goalkeeper := [24] }),
    ("SNMOT-066", { referee := [1, 5, 25], ball := [24], goalkeeper := [24] }),
    ("SNMOT-067", { referee := [21, 20, 25], ball := [22], goalkeeper := [19, 26] }),
    ("SNMOT-068", { referee := [9, 24], ball := [8], goalkeeper := [4] }),
    ("SNMOT-069", { referee := [15, 13], ball := [18], goalkeeper := [] }),
    ("SNMOT-070", { referee := [1, 2], ball := [12], goalkeeper := [24, 25] }),
    ("SNMOT-071", { referee := [18], ball := [20], goalkeeper := [19] }),
    ("SNMOT-072", { referee := [2, 24], ball := [1], goalkeeper := [22] }),
    ("SNMOT-073", { referee := [7, 17], ball := [19], goalkeeper := [24, 25] }),
    ("SNMOT-074", { referee := [24, 25, 9], ball := [23], goalkeeper := [22] }),
    ("SNMOT-075", { referee := [10, 23], ball := [22], goalkeeper := [11] }),
    ("SNMOT-076", { referee := [5, 19, 22], ball := [25], goalkeeper := [26] }),
    ("SNMOT-077", { referee := [5, 21], ball := [20], goalkeeper := [23] }) ]

/-- the class lists bound to a sequence name, or empty lists when the
sequence is absent from the table (`ID_MAPPINGS.get(snmot_name, {})`). -/
def classListsOf (tbl : List (String × ClassLists)) (name : String) : ClassLists :=
  (assocFind tbl name).getD { referee := [], ball := [], goalkeeper := [] }

/-- `get_class_from_track_id` of `split.py`: linear scan over
`mapping.items()` in dict insertion order (referee, ball, goalkeeper; the
tables carry no player key, modelled by the always-empty `player` field),
defaulting to `"player"`. -/
def get_class_from_track_id (tbl : List (String × ClassLists)) (name : String)
    (tid : ℤ) : String :=
  match assocFind tbl name with
  | none => "player"
  | some m =>
    if tid ∈ m.referee then "referee"
    else if tid ∈ m.ball then "ball"
    else if tid ∈ m.goalkeeper then "goalkeeper"
    else if tid ∈ m.player then "player"
    else "player"

/-- one step of building a reverse map: assign a class to a track id only
when the id is not already bound (`if track_id not in reverse_map`). -/
def addIfAbsent (rm : List (ℤ × String)) (tid : ℤ) (c : String) : List (ℤ × String) :=
  match assocFind rm tid with
  | some _ => rm
  | none => rm ++ [(tid, c)]

/-- bind every id of one class list, in list order, skipping already-bound
ids (the inner loop of the `REVERSE_ID_MAPPINGS` construction). -/
def addClassIds (rm : List (ℤ × String)) (ids : List ℤ) (c : String) : List (ℤ × String) :=
  ids.foldl (fun r i => addIfAbsent r i c) rm

/-- the reverse map of one sequence: classes are processed in
`reversed(["player", "goalkeeper", "referee", "ball"])` order, i.e. ball,
then referee, then goalkeeper, then player, first assignment winning. -/
def buildReverseMap (m : ClassLists) : List (ℤ × String) :=
  addClassIds (addClassIds (addClassIds (addClassIds [] m.ball "ball")
    m.referee "referee") m.goalkeeper "goalkeeper") m.player "player"

/-- `REVERSE_ID_MAPPINGS`: the precomputed reverse map for every sequence
of a table. -/
def REVERSE_ID_MAPPINGS (tbl : List (String × ClassLists)) :
    List (String × List (ℤ × String)) :=
  tbl.map (fun p => (p.1, buildReverseMap p.2))

/-- `get_class_from_track_id_fast` of `faster_split.py`:
`REVERSE_ID_MAPPINGS.get(snmot_name, {}).get(track_id, "player")` followed
by `CLASS_MAP.get(cls_name, CLASS_MAP["player"])`. -/
def get_class_from_track_id_fast (tbl : List (String × ClassLists)) (name : String)
    (tid : ℤ) : ℕ :=
  classMapGet ((assocFind ((assocFind (REVERSE_ID_MAPPINGS tbl) name).getD []) tid).getD "player")

lemma classMapGet_player : classMapGet "player" = 0 := by decide

lemma classMapGet_goalkeeper : classMapGet "goalkeeper" = 1 := by decide

lemma classMapGet_referee : classMapGet "referee" = 2 := by decide

lemma classMapGet_ball : classMapGet "ball" = 3 := by decide

lemma classIndexOf_player : classIndexOf "player" = 0 := by decide

lemma classIndexOf_goalkeeper : classIndexOf "goalkeeper" = 1 := by decide

lemma classIndexOf_referee : classIndexOf "referee" = 2 := by decide

lemma classIndexOf_ball : classIndexOf "ball" = 3 := by decide

lemma assocFind_append (l1 l2 : List (ℤ × String)) (t : ℤ) :
    assocFind (l1 ++ l2) t = oElse (assocFind l1 t) (assocFind l2 t) := by
  induction l1 with
  | nil => simp [assocFind, oElse]
  | cons p rest ih =>
    obtain ⟨k, v⟩ := p
    by_cases hk : k = t
    · simp [assocFind, hk, oElse]
    · simp [assocFind, hk, ih]

lemma oElse_none_right (a : Option String) : oElse a none = a := by
  cases a <;> rfl

lemma assocFind_addIfAbsent (rm : List (ℤ × String)) (i tid : ℤ) (c : String) :
    assocFind (addIfAbsent rm i c) tid =
      oElse (assocFind rm tid) (if tid = i then some c else none) := by
  unfold addIfAbsent
  cases hfind : assocFind rm i with
  | some v =>
    cases htid : assocFind rm tid with
    | some w => simp [oElse]
    | none =>
      simp only [oElse]
      by_cases h : tid = i
      · subst h
        rw [htid] at hfind
        exact absurd hfind (by simp)
      · rw [if_neg h]
  | none =>
    rw [assocFind_append]
    have hsingle : assocFind [(i, c)] tid = if tid = i then some c else none := by
      by_cases h : tid = i
      · subst h; simp [assocFind]
      · simp only [assocFind]
        rw [if_neg (fun hh => h hh.symm), if_neg h]
    rw [hsingle]

lemma assocFind_addClassIds (ids : List ℤ) (rm : List (ℤ × String)) (tid : ℤ) (c : String) :
    assocFind (addClassIds rm ids c) tid =
      oElse (assocFind rm tid) (if tid ∈ ids then some c else none) := by
  induction ids generalizing rm with
  | nil =>
    simp only [addClassIds, List.foldl_nil, List.not_mem_nil, if_false]
    rw [oElse_none_right]
  | cons a ids ih =>
    show assocFind (addClassIds (addIfAbsent rm a c) ids c) tid = _
    rw [ih, assocFind_addIfAbsent]
    by_cases h : tid = a
    · subst h
      simp only [List.mem_cons, true_or, if_pos rfl]
      cases assocFind rm tid <;> simp [oElse]
    · rw [if_neg h, oElse_none_right]
      have hmem : (if tid ∈ a :: ids then some c else none) =
          (if tid ∈ ids then some c else none) := by
        simp [List.mem_cons, h]
      rw [hmem]

lemma buildReverseMap_find (m : ClassLists) (tid : ℤ) :
    assocFind (buildReverseMap m) tid =
      (if tid ∈ m.ball then some "ball"
       else if tid ∈ m.referee then some "referee"
       else if tid ∈ m.goalkeeper then some "goalkeeper"
       else if tid ∈ m.player then some "player"
       else none) := by
  unfold buildReverseMap
  rw [assocFind_addClassIds, assocFind_addClassIds, assocFind_addClassIds,
    assocFind_addClassIds]
  simp only [assocFind, oElse]
  by_cases hb : tid ∈ m.ball <;> by_cases hr : tid ∈ m.referee <;>
    by_cases hg : tid ∈ m.goalkeeper <;> by_cases hp : tid ∈ m.player <;>
    simp [hb, hr, hg, hp]

lemma assocFind_reverse_mappings (tbl : List (String × ClassLists)) (name : String) :
    assocFind (REVERSE_ID_MAPPINGS tbl) name =
      (assocFind tbl name).map buildReverseMap := by
  induction tbl with
  | nil => rfl
  | cons p rest ih =>
    obtain ⟨k, v⟩ := p
    by_cases hk : k = name
    · simp [REVERSE_ID_MAPPINGS, assocFind, hk]
    · simpa [REVERSE_ID_MAPPINGS, assocFind, hk] using ih

/-- characterization of the fast resolver: it returns the priority class
index, ball (3) > referee (2) > goalkeeper (1) > player (0), of the looked-up
sequence table (empty lists when the sequence is unmapped). -/
lemma fast_eq_priority (tbl : List (String × ClassLists)) (name : String) (tid : ℤ) :
    get_class_from_track_id_fast tbl name tid =
      (if tid ∈ (classListsOf tbl name).ball then 3
       else if tid ∈ (classListsOf tbl name).referee then 2
       else if tid ∈ (classListsOf tbl name).goalkeeper then 1
       else 0) := by
  unfold get_class_from_track_id_fast classListsOf
  rw [assocFind_reverse_mappings]
  cases hfind : assocFind tbl name with
  | none =>
    simpa [assocFind, oElse] using classMapGet_player
  | some m =>
    simp only [Option.map_some', Option.getD_some]
    rw [buildReverseMap_find]
    by_cases hb : tid ∈ m.ball <;> by_cases hr : tid ∈ m.referee <;>
      by_cases hg : tid ∈ m.goalkeeper <;> by_cases hp : tid ∈ m.player <;>
      simp [hb, hr, hg, hp, classMapGet_player, classMapGet_goalkeeper,
        classMapGet_referee, classMapGet_ball]

/-- characterization of the `split.py` linear scan followed by
`.index(...)`: first match in dict insertion order referee (2), ball (3),
goalkeeper (1), defaulting to player (0). -/
lemma linear_eq_scan (tbl : List (String × ClassLists)) (name : String) (tid : ℤ) :
    classIndexOf (get_class_from_track_id tbl name tid) =
      (if tid ∈ (classListsOf tbl name).referee then 2
       else if tid ∈ (classListsOf tbl name).ball then 3
       else if tid ∈ (classListsOf tbl name).goalkeeper then 1
       else 0) := by
  unfold get_class_from_track_id classListsOf
  cases hfind : assocFind tbl name with
  | none => simpa [assocFind] using classIndexOf_player
  | some m =>
    simp only [Option.getD_some]
    by_cases hr : tid ∈ m.referee <;> by_cases hb : tid ∈ m.ball <;>
      by_cases hg : tid ∈ m.goalkeeper <;> by_cases hp : tid ∈ m.player <;>
      simp [hb, hr, hg, hp, classIndexOf_player, classIndexOf_goalkeeper,
        classIndexOf_referee, classIndexOf_ball]

/-- C3: for every table, sequence-id and track-id the fast resolver returns a
class index in {0,1,2,3}; an unknown sequence-id gives player (0); a track-id
in the ball list resolves to ball (3) regardless of other memberships (in
particular when it is also in the player list), then referee (2), then
goalkeeper (1); a track-id absent from all lists resolves to player (0). -/
theorem C3_class_resolver_priority (tbl : List (String × ClassLists))
    (name : String) (tid : ℤ) :
    get_class_from_track_id_fast tbl name tid ≤ 3 ∧
    (assocFind tbl name = none → get_class_from_track_id_fast tbl name tid = 0) ∧
    (tid ∈ (classListsOf tbl name).ball →
      get_class_from_track_id_fast tbl name tid = 3) ∧
    (tid ∉ (classListsOf tbl name).ball → tid ∈ (classListsOf tbl name).referee →
      get_class_from_track_id_fast tbl name tid = 2) ∧
    (tid ∉ (classListsOf tbl name).ball → tid ∉ (classListsOf tbl name).referee →
      tid ∈ (classListsOf tbl name).goalkeeper →
      get_class_from_track_id_fast tbl name tid = 1) ∧
    (tid ∉ (classListsOf tbl name).ball → tid ∉ (classListsOf tbl name).referee →
      tid ∉ (classListsOf tbl name).goalkeeper →
      get_class_from_track_id_fast tbl name tid = 0) := by
  rw [fast_eq_priority]
  refine ⟨?_, ?_, ?_, ?_, ?_, ?_⟩
  · by_cases hb : tid ∈ (classListsOf tbl name).ball <;>
      by_cases hr : tid ∈ (classListsOf tbl name).referee <;>
      by_cases hg : tid ∈ (classListsOf tbl name).goalkeeper <;>
      simp [hb, hr, hg]
  · intro hnone
    simp [classListsOf, hnone]
  · intro hb; simp [hb]
  · intro hb hr; simp [hb, hr]
  · intro hb hr hg; simp [hb, hr, hg]
  · intro hb hr hg; simp [hb, hr, hg]

/-- witness for C3 on the real table: sequence SNMOT-068 has referee ids
[9, 24], ball [8], goalkeeper [4]; id 5 is unmapped, and SNMOT-999 is not a
key of the table. -/
theorem C3_class_resolver_priority_witness :
    get_class_from_track_id_fast ID_MAPPINGS "SNMOT-068" 8 = 3 ∧
    get_class_from_track_id_fast ID_MAPPINGS "SNMOT-068" 9 = 2 ∧
    get_class_from_track_id_fast ID_MAPPINGS "SNMOT-068" 4 = 1 ∧
    get_class_from_track_id_fast ID_MAPPINGS "SNMOT-068" 5 = 0 ∧
    get_class_from_track_id_fast ID_MAPPINGS "SNMOT-999" 5 = 0 :=
  ⟨(C3_class_resolver_priority ID_MAPPINGS "SNMOT-068" 8).2.2.1 (by decide),
   (C3_class_resolver_priority ID_MAPPINGS "SNMOT-068" 9).2.2.2.1 (by decide) (by decide),
   (C3_class_resolver_priority ID_MAPPINGS "SNMOT-068" 4).2.2.2.2.1 (by decide)
     (by decide) (by decide),
   (C3_class_resolver_priority ID_MAPPINGS "SNMOT-068" 5).2.2.2.2.2 (by decide)
     (by decide) (by decide),
   (C3_class_resolver_priority ID_MAPPINGS "SNMOT-999" 5).2.1 (by decide)⟩

/-- a synthetic table on which the two resolver implementations disagree: a
track id listed under both referee and ball. -/
def divergingTable : List (String × ClassLists) :=
  [("SEQ-X", { referee := [7], ball := [7], goalkeeper := [] })]

/-- C4 counterexample: the linear scan of `split.py` visits the referee list
before the ball list, so track 7 resolves to referee (index 2) there, while
the precomputed reverse index of `faster_split.py` gives ball priority
(index 3): the two implementations are not extensionally equal over all
tables. -/
theorem C4_resolver_equivalence_counterexample :
    classIndexOf (get_class_from_track_id divergingTable "SEQ-X" 7) = 2 ∧
    get_class_from_track_id_fast divergingTable "SEQ-X" 7 = 3 ∧
    classIndexOf (get_class_from_track_id divergingTable "SEQ-X" 7) ≠
      get_class_from_track_id_fast divergingTable "SEQ-X" 7 := by
  refine ⟨by decide, by decide, by decide⟩

/-- C4 amended: the two resolvers agree on every table in which no track id
is listed under both the referee and the ball list of the same sequence (as
holds for every sequence of the repository's tables). -/
theorem C4_resolver_equivalence_amended (tbl : List (String × ClassLists))
    (name : String) (tid : ℤ)
    (h : ∀ i ∈ (classListsOf tbl name).referee, i ∉ (classListsOf tbl name).ball) :
    get_class_from_track_id_fast tbl name tid =
      classIndexOf (get_class_from_track_id tbl name tid) := by
  rw [fast_eq_priority, linear_eq_scan]
  by_cases hr : tid ∈ (classListsOf tbl name).referee
  · have hb : tid ∉ (classListsOf tbl name).ball := h tid hr
    simp [hr, hb]
  · by_cases hb : tid ∈ (classListsOf tbl name).ball <;> simp [hr, hb]

/-- witness for C4 amended on the real table (SNMOT-060, referee id 14). -/
theorem C4_resolver_equivalence_amended_witness :
    get_class_from_track_id_fast ID_MAPPINGS "SNMOT-060" 14 =
      classIndexOf (get_class_from_track_id ID_MAPPINGS "SNMOT-060" 14) :=
  C4_resolver_equivalence_amended ID_MAPPINGS "SNMOT-060" 14 (by decide)

/-- fuel-driven search for the least `s` with `p < 2^(53+s)` (the number of
low bits that rounding to a 53-bit significand discards).  The fuel 1200
covers every value below `2^1253`, far beyond the IEEE-754 double range the
embedded products can reach. -/
def sig53ShiftAux : ℕ → ℕ → ℕ → ℕ
  | 0, _, s => s
  | fuel + 1, p, s => if p < 2 ^ (53 + s) then s else sig53ShiftAux fuel p (s + 1)

/-- least `s` such that `p < 2^(53+s)`. -/
def sig53Shift (p : ℕ) : ℕ := sig53ShiftAux 1200 p 0

/-- round a natural number to 53 significant bits with IEEE-754
round-to-nearest, ties to even: the rounding applied by a double-precision
multiplication to the exact product of its operands (scaled by a power of
two). -/
def roundSig53 (p : ℕ) : ℕ :=
  let s := sig53Shift p
  if s = 0 then p
  else
    let q := p / 2 ^ s
    let r := p % 2 ^ s
    let hf := 2 ^ (s - 1)
    (if hf < r ∨ (r = hf ∧ q % 2 = 1) then q + 1 else q) * 2 ^ s

/-- significand of the IEEE-754 double closest to 0.7 (`TRAIN_RATIO = 0.7`
in `faster_split.py` is stored as `TRAIN_SIG / 2^53`). -/
def TRAIN_SIG : ℕ := 6305039478318694

/-- significand of the IEEE-754 double closest to 0.1 (`VALID_RATIO = 0.1`
is stored as `VALID_SIG / 2^55`). -/
def VALID_SIG : ℕ := 3602879701896397

/-- `num_train = int(total_frames * TRAIN_RATIO)`: the exact product
`n * TRAIN_SIG / 2^53` is rounded to the nearest double (round half to
even), then truncated toward zero, which for nonnegative values is the
floor, i.e. natural division by `2^53`. -/
def numTrain (n : ℕ) : ℕ := roundSig53 (n * TRAIN_SIG) / 2 ^ 53

/-- `num_valid = int(total_frames * VALID_RATIO)` with the same IEEE
semantics over `VALID_SIG / 2^55`. -/
def numValid (n : ℕ) : ℕ := roundSig53 (n * VALID_SIG) / 2 ^ 55

/-- `num_test = total_frames - num_train - num_valid`. -/
def numTest (n : ℕ) : ℕ := n - numTrain n - numValid n

/-- the chronological three-way split of `process_sequence`
(`faster_split.py` lines 303-315): the sorted frame list is sliced into
`[:num_train]`, `[num_train:num_train+num_valid]` and
`[num_train+num_valid:]`. -/
def chronoSplit {α : Type} (l : List α) : List α × List α × List α :=
  (l.take (numTrain l.length),
   (l.drop (numTrain l.length)).take (numValid l.length),
   l.drop (numTrain l.length + numValid l.length))

lemma chronoSplit_append {α : Type} (l : List α) :
    (chronoSplit l).1 ++ (chronoSplit l).2.1 ++ (chronoSplit l).2.2 = l := by
  unfold chronoSplit
  simp only
  rw [List.append_assoc]
  have hdrop : l.drop (numTrain l.length + numValid l.length) =
      (l.drop (numTrain l.length)).drop (numValid l.length) := by
    rw [List.drop_drop, Nat.add_comm]
  rw [hdrop, List.take_append_drop, List.take_append_drop]

/-- C2 counterexample: for a 90-frame sequence the exact value
`floor(90 * 0.7)` is 63, but the code computes `int(90 * 0.7)` on IEEE
doubles, where `90 * 0.7 = 62.99999999999999289...` rounds below 63, so the
train segment receives 62 frames, not `floor(N * 0.7)`. -/
theorem C2_chronological_split_counterexample :
    numTrain 90 = 62 ∧ 90 * 7 / 10 = 63 ∧ numTrain 90 ≠ 90 * 7 / 10 := by
  refine ⟨by decide, by decide, by decide⟩

/-- C2 amended: the frames are kept in order and cut into three contiguous
segments of sizes `int(N*0.7)`, `int(N*0.1)` and the remainder, computed in
IEEE double arithmetic (which can fall one short of the exact floor, e.g. at
N = 90); the segments concatenate back to the whole list, so
`|train| + |valid| + |test| = N` with no frame in two splits, and for
N = 100 the sizes are exactly 70/10/20. -/
theorem C2_chronological_split_amended {α : Type} (l : List α) :
    (chronoSplit l).1 = l.take (numTrain l.length) ∧
    (chronoSplit l).2.1 = (l.drop (numTrain l.length)).take (numValid l.length) ∧
    (chronoSplit l).2.2 = l.drop (numTrain l.length + numValid l.length) ∧
    (chronoSplit l).1 ++ (chronoSplit l).2.1 ++ (chronoSplit l).2.2 = l ∧
    (chronoSplit l).1.length + (chronoSplit l).2.1.length + (chronoSplit l).2.2.length
      = l.length ∧
    (l.Nodup → ∀ a : α, ¬(a ∈ (chronoSplit l).1 ∧ a ∈ (chronoSplit l).2.1) ∧
      ¬(a ∈ (chronoSplit l).1 ∧ a ∈ (chronoSplit l).2.2) ∧
      ¬(a ∈ (chronoSplit l).2.1 ∧ a ∈ (chronoSplit l).2.2)) ∧
    (l.length = 100 → (chronoSplit l).1.length = 70 ∧
      (chronoSplit l).2.1.length = 10 ∧ (chronoSplit l).2.2.length = 20) := by
  refine ⟨rfl, rfl, rfl, chronoSplit_append l, ?_, ?_, ?_⟩
  · have h := congrArg List.length (chronoSplit_append l)
    simp only [List.length_append] at h
    omega
  · intro hnodup a
    have hl : ((chronoSplit l).1 ++ ((chronoSplit l).2.1 ++ (chronoSplit l).2.2)).Nodup := by
      rw [← List.append_assoc, chronoSplit_append l]
      exact hnodup
    rw [List.nodup_append] at hl
    obtain ⟨h1, h23, hdisj1⟩ := hl
    rw [List.nodup_append] at h23
    obtain ⟨h2, h3, hdisj23⟩ := h23
    refine ⟨fun ⟨ha1, ha2⟩ => hdisj1 ha1 (List.mem_append_left _ ha2),
      fun ⟨ha1, ha3⟩ => hdisj1 ha1 (List.mem_append_right _ ha3),
      fun ⟨ha2, ha3⟩ => hdisj23 ha2 ha3⟩
  · intro hlen
    unfold chronoSplit
    have ht : numTrain 100 = 70 := by decide
    have hv : numValid 100 = 10 := by decide
    simp [hlen, ht, hv, List.length_take, List.length_drop]

/-- witness for C2 amended at a concrete 100-frame sequence. -/
theorem C2_chronological_split_amended_witness :
    (chronoSplit (List.range 100)).1.length = 70 ∧
    (chronoSplit (List.range 100)).2.1.length = 10 ∧
    (chronoSplit (List.range 100)).2.2.length = 20 :=
  (C2_chronological_split_amended (List.range 100)).2.2.2.2.2.2 (by simp)

/-- one syntactically valid ground-truth row:
`frame_id, track_id, x, y, w, h` (absolute pixel coordinates). -/
structure RawRow where
  frame : ℤ
  track : ℤ
  x : ℚ
  y : ℚ
  w : ℚ
  h : ℚ
  deriving DecidableEq

/-- the row parser of `generate_yolo_labels_all_frames` (lines 199-207 of
`faster_split.py`) over the comma-split fields of one line: at least six
fields, the first two parsed by Python `int(...)` and the next four by
`float(...)` (both passed in as abstract partial parsers, `None` meaning
`ValueError`), then `w <= 0 or h <= 0` rows are dropped.  Extra trailing
fields are ignored. -/
def readGtRow (pInt : String → Option ℤ) (pFloat : String → Option ℚ)
    (parts : List String) : Option RawRow :=
  match parts with
  | p0 :: p1 :: p2 :: p3 :: p4 :: p5 :: _ =>
    (pInt p0).bind fun fr =>
    (pInt p1).bind fun tr =>
    (pFloat p2).bind fun x =>
    (pFloat p3).bind fun y =>
    (pFloat p4).bind fun w =>
    (pFloat p5).bind fun h =>
    if w ≤ 0 ∨ h ≤ 0 then none else some ⟨fr, tr, x, y, w, h⟩
  | _ => none

/-- reading a whole ground-truth file: each line is processed independently
and invalid lines are skipped (`continue`), never aborting the loop. -/
def readGtRows (pInt : String → Option ℤ) (pFloat : String → Option ℚ)
    (rows : List (List String)) : List RawRow :=
  rows.filterMap (readGtRow pInt pFloat)

/-- floor of a rational as an integer (`den` is always positive, so
flooring division of `num` by `den` is the floor). -/
def ratFloor (q : ℚ) : ℤ := q.num.fdiv q.den

/-- round a rational to the nearest integer, ties to even: the rounding
Python's fixed-precision `format` applies at the last kept digit. -/
def roundHalfEven (q : ℚ) : ℤ :=
  let f := ratFloor q
  let r := q - (f : ℚ)
  if r < 1 / 2 then f
  else if 1 / 2 < r then f + 1
  else if f % 2 = 0 then f else f + 1

/-- decimal rendering of a natural number left-padded with zeros to `wd`
digits. -/
def padZeros (wd : ℕ) (n : ℕ) : String :=
  let s := Nat.repr n
  String.mk (List.replicate (wd - s.length) '0') ++ s

/-- `f"{v:.6f}"` for a nonnegative rational: fixed six decimal digits (all
formatted values are clamped to [0,1] first, so no sign is needed). -/
def fmt6 (q : ℚ) : String :=
  let m := (roundHalfEven (q * 1000000)).toNat
  Nat.repr (m / 1000000) ++ "." ++ padZeros 6 (m % 1000000)

/-- `max(0.0, min(1.0, v))`, the clamp of lines 225-228. -/
def clamp01 (q : ℚ) : ℚ := max 0 (min 1 q)

/-- one emitted annotation line,
`f"{class_id} {x_center:.6f} {y_center:.6f} {w_norm:.6f} {h_norm:.6f}\n"`. -/
def yoloLine (c : ℕ) (xc yc wn hn : ℚ) : String :=
  Nat.repr c ++ " " ++ fmt6 xc ++ " " ++ fmt6 yc ++ " " ++ fmt6 wn ++ " " ++
    fmt6 hn ++ "\n"

/-- processing of one ground-truth line (lines 199-238 of
`faster_split.py`): parse the row, look up the cached frame dimensions
(`None` when the image was missing or unreadable), normalize and clamp the
box, drop boxes that collapsed to nonpositive width or height, and emit the
formatted annotation line keyed by its frame id. -/
def processGtLine (tbl : List (String × ClassLists)) (snmot : String)
    (dims : ℤ → Option (ℚ × ℚ)) (pInt : String → Option ℤ)
    (pFloat : String → Option ℚ) (parts : List String) : Option (ℤ × String) :=
  match readGtRow pInt pFloat parts with
  | none => none
  | some r =>
    match dims r.frame with
    | none => none
    | some wh =>
      let xc := clamp01 ((r.x + r.w / 2) / wh.1)
      let yc := clamp01 ((r.y + r.h / 2) / wh.2)
      let wn := clamp01 (r.w / wh.1)
      let hn := clamp01 (r.h / wh.2)
      if wn ≤ 0 ∨ hn ≤ 0 then none
      else some (r.frame, yoloLine (get_class_from_track_id_fast tbl snmot r.track)
        xc yc wn hn)

/-- all (frame id, annotation line) pairs a ground-truth file produces, in
file order. -/
def generateLabelPairs (tbl : List (String × ClassLists)) (snmot : String)
    (dims : ℤ → Option (ℚ × ℚ)) (pInt : String → Option ℤ)
    (pFloat : String → Option ℚ) (rows : List (List String)) : List (ℤ × String) :=
  rows.filterMap (processGtLine tbl snmot dims pInt pFloat)

/-- content of the label file written for one frame: the lines collected in
`annotations_by_frame[frame_id]`, in discovery order (a file is only
written when this list is nonempty). -/
def labelFileLines (pairs : List (ℤ × String)) (f : ℤ) : List String :=
  (pairs.filter (fun p => p.1 == f)).map Prod.snd

lemma clamp01_nonneg (q : ℚ) : 0 ≤ clamp01 q := le_max_left _ _

lemma clamp01_le_one (q : ℚ) : clamp01 q ≤ 1 := by
  unfold clamp01
  exact max_le (by norm_num) (min_le_left _ _)

lemma clamp01_div_pos (a b : ℚ) (ha : 0 < a) (hb : 0 < b) : 0 < clamp01 (a / b) := by
  unfold clamp01
  have hq : 0 < a / b := div_pos ha hb
  exact lt_max_of_lt_right (lt_min one_pos hq)

lemma classMapGet_le_three (s : String) : classMapGet s ≤ 3 := by
  unfold classMapGet
  have h4 : CLASS_NAMES.length = 4 := rfl
  dsimp only
  split
  · rename_i hlt
    rw [h4] at hlt
    omega
  · omega

/-- C5: the annotation reader yields a record exactly when the line has at
least six comma-separated fields, the first two parse as integers, the next
four parse as floats, and the parsed width and height are positive; a line
failing these conditions contributes nothing and the remaining lines are
still processed. -/
theorem C5_row_validity (pInt : String → Option ℤ) (pFloat : String → Option ℚ)
    (parts : List String) :
    (∀ r : RawRow, readGtRow pInt pFloat parts = some r ↔
      ∃ p0 p1 p2 p3 p4 p5 rest, parts = p0 :: p1 :: p2 :: p3 :: p4 :: p5 :: rest ∧
        pInt p0 = some r.frame ∧ pInt p1 = some r.track ∧
        pFloat p2 = some r.x ∧ pFloat p3 = some r.y ∧
        pFloat p4 = some r.w ∧ pFloat p5 = some r.h ∧ 0 < r.w ∧ 0 < r.h) ∧
    (readGtRow pInt pFloat parts = none → ∀ rows : List (List String),
      readGtRows pInt pFloat (parts :: rows) = readGtRows pInt pFloat rows) := by
  constructor
  · intro r
    constructor
    · intro hsome
      match parts with
      | [] => simp [readGtRow] at hsome
      | [p0] => simp [readGtRow] at hsome
      | [p0, p1] => simp [readGtRow] at hsome
      | [p0, p1, p2] => simp [readGtRow] at hsome
      | [p0, p1, p2, p3] => simp [readGtRow] at hsome
      | [p0, p1, p2, p3, p4] => simp [readGtRow] at hsome
      | p0 :: p1 :: p2 :: p3 :: p4 :: p5 :: rest =>
        refine ⟨p0, p1, p2, p3, p4, p5, rest, rfl, ?_⟩
        simp only [readGtRow, Option.bind_eq_some] at hsome
        obtain ⟨fr, h0, tr, h1, x, h2, y, h3, w, h4, h, h5, hfin⟩ := hsome
        by_cases hwh : w ≤ 0 ∨ h ≤ 0
        · rw [if_pos hwh] at hfin
          exact absurd hfin (by simp)
        · rw [if_neg hwh] at hfin
          push_neg at hwh
          obtain ⟨hw, hh⟩ := hwh
          obtain rfl : (⟨fr, tr, x, y, w, h⟩ : RawRow) = r := Option.some_injective _ hfin
          exact ⟨h0, h1, h2, h3, h4, h5, hw, hh⟩
    · rintro ⟨p0, p1, p2, p3, p4, p5, rest, rfl, h0, h1, h2, h3, h4, h5, hw, hh⟩
      simp only [readGtRow, h0, h1, h2, h3, h4, h5, Option.some_bind]
      rw [if_neg]
      push_neg
      exact ⟨hw, hh⟩
  · intro hnone rows
    unfold readGtRows
    rw [List.filterMap_cons]
    rw [hnone]

/-- integer parser used to instantiate the abstract `int(...)` at witness
inputs. -/
def pIntEx : String → Option ℤ := fun s =>
  if s = "5" then some 5 else if s = "7" then some 7 else none

/-- float parser used to instantiate the abstract `float(...)` at witness
inputs. -/
def pFloatEx : String → Option ℚ := fun s =>
  if s = "100.0" then some 100
  else if s = "200.0" then some 200
  else if s = "50.0" then some 50
  else if s = "80.0" then some 80 else none

/-- the comma-split fields of the spec's Scenario A row
`"5,7,100.0,200.0,50.0,80.0"`. -/
def scenarioRow : List String := ["5", "7", "100.0", "200.0", "50.0", "80.0"]

/-- dimension cache of Scenario A: frame 5 has width 1000 and height 500. -/
def dimsA : ℤ → Option (ℚ × ℚ) := fun f => if f = 5 then some (1000, 500) else none

/-- witness for C5: a fully valid row parses to the expected record, and an
invalid row (too few fields) is skipped without affecting later rows. -/
theorem C5_row_validity_witness :
    readGtRow pIntEx pFloatEx scenarioRow = some ⟨5, 7, 100, 200, 50, 80⟩ ∧
    readGtRows pIntEx pFloatEx (["garbage"] :: [scenarioRow]) =
      readGtRows pIntEx pFloatEx [scenarioRow] := by
  constructor
  · exact ((C5_row_validity pIntEx pFloatEx scenarioRow).1 ⟨5, 7, 100, 200, 50, 80⟩).mpr
      ⟨"5", "7", "100.0", "200.0", "50.0", "80.0", [], rfl, by decide, by decide,
        by decide, by decide, by decide, by decide, by decide, by decide⟩
  · exact (C5_row_validity pIntEx pFloatEx ["garbage"]).2 (by decide) [scenarioRow]

lemma ratFloor_intCast (n : ℤ) : ratFloor (n : ℚ) = n := by
  unfold ratFloor
  rw [Rat.num_intCast, Rat.den_intCast]
  exact Int.fdiv_one n

lemma roundHalfEven_intCast (n : ℤ) : roundHalfEven (n : ℚ) = n := by
  unfold roundHalfEven
  rw [ratFloor_intCast]
  norm_num

/-- evaluation of the six-decimal formatter at a rational that is an exact
multiple of 10^-6. -/
lemma fmt6_eval (q : ℚ) (n : ℤ) (hq : q * 1000000 = (n : ℚ)) :
    fmt6 q = Nat.repr (n.toNat / 1000000) ++ "." ++ padZeros 6 (n.toNat % 1000000) := by
  unfold fmt6
  rw [hq, roundHalfEven_intCast]

/-- evaluation of `processGtLine` on a row whose six leading fields parse
and whose frame has positive cached dimensions: the emitted pair carries the
frame id and the formatted clamped normalized box. -/
lemma processGtLine_eval (tbl : List (String × ClassLists)) (snmot : String)
    (dims : ℤ → Option (ℚ × ℚ)) (pInt : String → Option ℤ)
    (pFloat : String → Option ℚ) (p0 p1 p2 p3 p4 p5 : String)
    (rest : List String) (fr tr : ℤ) (x y w h W H : ℚ)
    (h0 : pInt p0 = some fr) (h1 : pInt p1 = some tr) (h2 : pFloat p2 = some x)
    (h3 : pFloat p3 = some y) (h4 : pFloat p4 = some w) (h5 : pFloat p5 = some h)
    (hw : 0 < w) (hh : 0 < h) (hdims : dims fr = some (W, H))
    (hW : 0 < W) (hH : 0 < H) :
    processGtLine tbl snmot dims pInt pFloat
        (p0 :: p1 :: p2 :: p3 :: p4 :: p5 :: rest) =
      some (fr, yoloLine (get_class_from_track_id_fast tbl snmot tr)
        (clamp01 ((x + w / 2) / W)) (clamp01 ((y + h / 2) / H))
        (clamp01 (w / W)) (clamp01 (h / H))) := by
  have hrow : readGtRow pInt pFloat (p0 :: p1 :: p2 :: p3 :: p4 :: p5 :: rest) =
      some ⟨fr, tr, x, y, w, h⟩ := by
    simp only [readGtRow, h0, h1, h2, h3, h4, h5, Option.some_bind]
    rw [if_neg]
    push_neg
    exact ⟨hw, hh⟩
  unfold processGtLine
  rw [hrow]
  simp only [hdims]
  rw [if_neg]
  push_neg
  exact ⟨clamp01_div_pos w W hw hW, clamp01_div_pos h H hh hH⟩

/-- the Scenario A annotation line fully evaluated: class 0, then the four
normalized coordinates 0.125, 0.48, 0.05, 0.16 at six decimals. -/
lemma scenarioYoloLine :
    yoloLine (get_class_from_track_id_fast ID_MAPPINGS "SNMOT-060" 7)
      (clamp01 ((100 + 50 / 2 : ℚ) / 1000)) (clamp01 ((200 + 80 / 2 : ℚ) / 500))
      (clamp01 ((50 : ℚ) / 1000)) (clamp01 ((80 : ℚ) / 500)) =
      "0 0.125000 0.480000 0.050000 0.160000\n" := by
  have hcls : get_class_from_track_id_fast ID_MAPPINGS "SNMOT-060" 7 = 0 := by
    decide
  have hxc : fmt6 (clamp01 ((100 + 50 / 2 : ℚ) / 1000)) = "0.125000" := by
    rw [show clamp01 ((100 + 50 / 2 : ℚ) / 1000) = 1 / 8 by norm_num [clamp01],
      fmt6_eval (1 / 8 : ℚ) 125000 (by norm_num)]
    decide
  have hyc : fmt6 (clamp01 ((200 + 80 / 2 : ℚ) / 500)) = "0.480000" := by
    rw [show clamp01 ((200 + 80 / 2 : ℚ) / 500) = 12 / 25 by norm_num [clamp01],
      fmt6_eval (12 / 25 : ℚ) 480000 (by norm_num)]
    decide
  have hwn : fmt6 (clamp01 ((50 : ℚ) / 1000)) = "0.050000" := by
    rw [show clamp01 ((50 : ℚ) / 1000) = 1 / 20 by norm_num [clamp01],
      fmt6_eval (1 / 20 : ℚ) 50000 (by norm_num)]
    decide
  have hhn : fmt6 (clamp01 ((80 : ℚ) / 500)) = "0.160000" := by
    rw [show clamp01 ((80 : ℚ) / 500) = 4 / 25 by norm_num [clamp01],
      fmt6_eval (4 / 25 : ℚ) 160000 (by norm_num)]
    decide
  unfold yoloLine
  rw [hcls, hxc, hyc, hwn, hhn]
  decide

/-- C1: every syntactically valid row whose frame has cached dimensions
W > 0, H > 0 yields an annotation line carrying the clamped normalized
center and size, each rendered with six fixed decimals; and the Scenario A
row "5,7,100.0,200.0,50.0,80.0" on a 1000x500 frame with unmapped track 7
yields exactly the line "0 0.125000 0.480000 0.050000 0.160000" (with its
trailing newline, as written by the code). -/
theorem C1_normalized_label_line :
    (∀ (tbl : List (String × ClassLists)) (snmot : String)
        (dims : ℤ → Option (ℚ × ℚ)) (pInt : String → Option ℤ)
        (pFloat : String → Option ℚ) (p0 p1 p2 p3 p4 p5 : String)
        (rest : List String) (fr tr : ℤ) (x y w h W H : ℚ),
      pInt p0 = some fr → pInt p1 = some tr → pFloat p2 = some x →
      pFloat p3 = some y → pFloat p4 = some w → pFloat p5 = some h →
      0 < w → 0 < h → dims fr = some (W, H) → 0 < W → 0 < H →
      processGtLine tbl snmot dims pInt pFloat
          (p0 :: p1 :: p2 :: p3 :: p4 :: p5 :: rest) =
        some (fr, yoloLine (get_class_from_track_id_fast tbl snmot tr)
          (clamp01 ((x + w / 2) / W)) (clamp01 ((y + h / 2) / H))
          (clamp01 (w / W)) (clamp01 (h / H)))) ∧
    (∀ (pInt : String → Option ℤ) (pFloat : String → Option ℚ),
      pInt "5" = some 5 → pInt "7" = some 7 → pFloat "100.0" = some 100 →
      pFloat "200.0" = some 200 → pFloat "50.0" = some 50 →
      pFloat "80.0" = some 80 →
      processGtLine ID_MAPPINGS "SNMOT-060" dimsA pInt pFloat scenarioRow =
        some (5, "0 0.125000 0.480000 0.050000 0.160000\n")) := by
  refine ⟨processGtLine_eval, ?_⟩
  intro pInt pFloat h5s h7s h100 h200 h50 h80
  have hmain := processGtLine_eval ID_MAPPINGS "SNMOT-060" dimsA pInt pFloat
    "5" "7" "100.0" "200.0" "50.0" "80.0" [] 5 7 100 200 50 80 1000 500
    h5s h7s h100 h200 h50 h80 (by norm_num) (by norm_num) (by decide)
    (by norm_num) (by norm_num)
  rw [show scenarioRow = "5" :: "7" :: "100.0" :: "200.0" :: "50.0" :: "80.0" :: []
    from rfl, hmain, scenarioYoloLine]

/-- witness for C1 at the concrete example parsers. -/
theorem C1_normalized_label_line_witness :
    processGtLine ID_MAPPINGS "SNMOT-060" dimsA pIntEx pFloatEx scenarioRow =
      some (5, "0 0.125000 0.480000 0.050000 0.160000\n") :=
  C1_normalized_label_line.2 pIntEx pFloatEx (by decide) (by decide) (by decide)
    (by decide) (by decide) (by decide)

/-- a well-formed written label line: class id at most 3, center coordinates
clamped into [0,1], width and height in (0,1]. -/
def ValidYoloLine (ln : String) : Prop :=
  ∃ c xc yc wn hn, ln = yoloLine c xc yc wn hn ∧ c ≤ 3 ∧
    0 ≤ xc ∧ xc ≤ 1 ∧ 0 ≤ yc ∧ yc ≤ 1 ∧ 0 < wn ∧ wn ≤ 1 ∧ 0 < hn ∧ hn ≤ 1

lemma fast_le_three (tbl : List (String × ClassLists)) (name : String) (tid : ℤ) :
    get_class_from_track_id_fast tbl name tid ≤ 3 :=
  classMapGet_le_three _

lemma processGtLine_valid (tbl : List (String × ClassLists)) (snmot : String)
    (dims : ℤ → Option (ℚ × ℚ)) (pInt : String → Option ℤ)
    (pFloat : String → Option ℚ) (parts : List String) (fr : ℤ) (ln : String)
    (hp : processGtLine tbl snmot dims pInt pFloat parts = some (fr, ln)) :
    ValidYoloLine ln := by
  unfold processGtLine at hp
  cases hrow : readGtRow pInt pFloat parts with
  | none => rw [hrow] at hp; simp at hp
  | some r =>
    rw [hrow] at hp
    dsimp only at hp
    cases hdim : dims r.frame with
    | none => rw [hdim] at hp; simp at hp
    | some wh =>
      rw [hdim] at hp
      dsimp only at hp
      by_cases hc : clamp01 (r.w / wh.1) ≤ 0 ∨ clamp01 (r.h / wh.2) ≤ 0
      · rw [if_pos hc] at hp
        exact absurd hp (by simp)
      · rw [if_neg hc] at hp
        push_neg at hc
        obtain ⟨hw, hh⟩ := hc
        have hln : yoloLine (get_class_from_track_id_fast tbl snmot r.track)
            (clamp01 ((r.x + r.w / 2) / wh.1)) (clamp01 ((r.y + r.h / 2) / wh.2))
            (clamp01 (r.w / wh.1)) (clamp01 (r.h / wh.2)) = ln := by
          have := Option.some_injective _ hp
          exact congrArg Prod.snd this
        exact ⟨get_class_from_track_id_fast tbl snmot r.track,
          clamp01 ((r.x + r.w / 2) / wh.1), clamp01 ((r.y + r.h / 2) / wh.2),
          clamp01 (r.w / wh.1), clamp01 (r.h / wh.2), hln.symm,
          fast_le_three tbl snmot r.track,
          clamp01_nonneg _, clamp01_le_one _, clamp01_nonneg _, clamp01_le_one _,
          hw, clamp01_le_one _, hh, clamp01_le_one _⟩

/-- C6: every line of every written label file is well formed: class id in
{0,1,2,3}, all four coordinates in [0,1], and width and height strictly
positive (degenerate boxes are dropped before writing). -/
theorem C6_label_file_line_invariant (tbl : List (String × ClassLists))
    (snmot : String) (dims : ℤ → Option (ℚ × ℚ)) (pInt : String → Option ℤ)
    (pFloat : String → Option ℚ) (rows : List (List String)) (f : ℤ) (ln : String)
    (hmem : ln ∈ labelFileLines (generateLabelPairs tbl snmot dims pInt pFloat rows) f) :
    ValidYoloLine ln := by
  unfold labelFileLines at hmem
  rw [List.mem_map] at hmem
  obtain ⟨p, hpfilter, hsnd⟩ := hmem
  have hpairs : p ∈ generateLabelPairs tbl snmot dims pInt pFloat rows :=
    List.mem_of_mem_filter hpfilter
  unfold generateLabelPairs at hpairs
  rw [List.mem_filterMap] at hpairs
  obtain ⟨parts, _, hproc⟩ := hpairs
  have : processGtLine tbl snmot dims pInt pFloat parts = some (p.1, ln) := by
    rw [hproc, ← hsnd]
  exact processGtLine_valid tbl snmot dims pInt pFloat parts p.1 ln this

/-- Scenario A evaluated at the concrete example parsers, for reuse in
closed-form computations. -/
lemma processScenarioRow_eval :
    processGtLine ID_MAPPINGS "SNMOT-060" dimsA pIntEx pFloatEx scenarioRow =
      some (5, "0 0.125000 0.480000 0.050000 0.160000\n") := by
  have hmain := processGtLine_eval ID_MAPPINGS "SNMOT-060" dimsA pIntEx pFloatEx
    "5" "7" "100.0" "200.0" "50.0" "80.0" [] 5 7 100 200 50 80 1000 500
    (by decide) (by decide) (by decide) (by decide) (by decide) (by decide)
    (by norm_num) (by norm_num) (by decide) (by norm_num) (by norm_num)
  rw [show scenarioRow = "5" :: "7" :: "100.0" :: "200.0" :: "50.0" :: "80.0" :: []
    from rfl, hmain, scenarioYoloLine]

/-- witness for C6: the Scenario A line, as collected into the label file of
frame 5, is well formed. -/
theorem C6_label_file_line_invariant_witness :
    ValidYoloLine "0 0.125000 0.480000 0.050000 0.160000\n" := by
  apply C6_label_file_line_invariant ID_MAPPINGS "SNMOT-060" dimsA pIntEx pFloatEx
    [scenarioRow] 5
  unfold labelFileLines generateLabelPairs
  rw [show List.filterMap (processGtLine ID_MAPPINGS "SNMOT-060" dimsA pIntEx pFloatEx)
      [scenarioRow] = [(5, "0 0.125000 0.480000 0.050000 0.160000\n")] by
    rw [List.filterMap_cons, processScenarioRow_eval]; rfl]
  decide

/-- remove the first binding of a key from an association list, modelling
`shutil.move` taking the staged file out of the source directory. -/
def removeKey : List (ℤ × String) → ℤ → List (ℤ × String)
  | [], _ => []
  | p :: rest, f => if p.1 = f then rest else p :: removeKey rest f

/-- move the staged label of frame `f` from the source directory to the
destination directory when it exists (`if source_label_path.is_file()`). -/
def moveOne (sd : List (ℤ × String) × List (ℤ × String)) (f : ℤ) :
    List (ℤ × String) × List (ℤ × String) :=
  match assocFind sd.1 f with
  | some c => (removeKey sd.1 f, sd.2 ++ [(f, c)])
  | none => sd

/-- the per-split move loop of `process_sequence`: for every frame of the
split, move its staged label if present. -/
def moveAll (sd : List (ℤ × String) × List (ℤ × String)) (frames : List ℤ) :
    List (ℤ × String) × List (ℤ × String) :=
  frames.foldl moveOne sd

/-- final on-disk state of one processed sequence: the frame ids whose
images were copied into each split's images directory, and the
(frame id, file content) pairs in each split's labels directory. -/
structure SeqResult where
  trainImgs : List ℤ
  validImgs : List ℤ
  testImgs : List ℤ
  trainLabels : List (ℤ × String)
  validLabels : List (ℤ × String)
  testLabels : List (ℤ × String)

/-- `process_sequence` of `faster_split.py` (lines 303-394) after label
generation: frames are identified by their ids (image stems are the
canonical zero-padded rendering of the id, as the input format guarantees);
`staged` is the labels directory filled by
`generate_yolo_labels_all_frames` (all label files written into
`train/labels` first).  When zero labels were generated the function
returns before distributing anything (lines 326-328); otherwise every image
is copied to its chronological split and the valid and test loops move the
matching staged label files out of `train/labels`. -/
def process_sequence_model (imgs : List ℤ) (staged : List (ℤ × String)) : SeqResult :=
  let s := chronoSplit imgs
  if staged.isEmpty then
    { trainImgs := [], validImgs := [], testImgs := [],
      trainLabels := staged, validLabels := [], testLabels := [] }
  else
    let mv := moveAll (staged, []) s.2.1
    let mt := moveAll (mv.1, []) s.2.2
    { trainImgs := s.1, validImgs := s.2.1, testImgs := s.2.2,
      trainLabels := mt.1, validLabels := mv.2, testLabels := mt.2 }

lemma removeKey_cons_pos (k : ℤ) (v : String) (rest : List (ℤ × String)) (f : ℤ)
    (h : k = f) : removeKey ((k, v) :: rest) f = rest := by
  simp [removeKey, h]

lemma removeKey_cons_neg (k : ℤ) (v : String) (rest : List (ℤ × String)) (f : ℤ)
    (h : ¬k = f) : removeKey ((k, v) :: rest) f = (k, v) :: removeKey rest f := by
  simp [removeKey, h]

lemma assocFind_cons_pos (k : ℤ) (v : String) (rest : List (ℤ × String)) (g : ℤ)
    (h : k = g) : assocFind ((k, v) :: rest) g = some v := by
  simp [assocFind, h]

lemma assocFind_cons_neg (k : ℤ) (v : String) (rest : List (ℤ × String)) (g : ℤ)
    (h : ¬k = g) : assocFind ((k, v) :: rest) g = assocFind rest g := by
  simp [assocFind, h]

lemma keys_removeKey_sublist (src : List (ℤ × String)) (f : ℤ) :
    ((removeKey src f).map Prod.fst).Sublist (src.map Prod.fst) := by
  induction src with
  | nil => simp [removeKey]
  | cons p rest ih =>
    obtain ⟨k, v⟩ := p
    by_cases hp : k = f
    · rw [removeKey_cons_pos k v rest f hp, List.map_cons]
      exact List.sublist_cons_self _ _
    · rw [removeKey_cons_neg k v rest f hp, List.map_cons, List.map_cons]
      exact ih.cons₂ _

lemma assocFind_eq_none_of_not_mem (src : List (ℤ × String)) (f : ℤ)
    (h : f ∉ src.map Prod.fst) : assocFind src f = none := by
  induction src with
  | nil => rfl
  | cons p rest ih =>
    obtain ⟨k, v⟩ := p
    simp only [List.map_cons, List.mem_cons] at h
    push_neg at h
    obtain ⟨h1, h2⟩ := h
    rw [assocFind_cons_neg k v rest f (fun hh => h1 hh.symm)]
    exact ih h2

lemma assocFind_removeKey (src : List (ℤ × String)) (f g : ℤ)
    (hnd : (src.map Prod.fst).Nodup) :
    assocFind (removeKey src f) g = if g = f then none else assocFind src g := by
  induction src with
  | nil => simp [removeKey, assocFind]
  | cons p rest ih =>
    obtain ⟨k, v⟩ := p
    simp only [List.map_cons, List.nodup_cons] at hnd
    obtain ⟨hknotin, hndrest⟩ := hnd
    by_cases hp : k = f
    · rw [removeKey_cons_pos k v rest f hp]
      by_cases hg : g = f
      · rw [if_pos hg]
        have hgk : g = k := by rw [hg, hp]
        rw [hgk]
        exact assocFind_eq_none_of_not_mem rest k hknotin
      · rw [if_neg hg]
        have hkg : ¬k = g := fun hh => hg (by rw [← hh, hp])
        rw [assocFind_cons_neg k v rest g hkg]
    · rw [removeKey_cons_neg k v rest f hp]
      by_cases hkg : k = g
      · have hgf : ¬g = f := fun hh => hp (by rw [hkg, hh])
        rw [if_neg hgf, assocFind_cons_pos k v _ g hkg,
          assocFind_cons_pos k v rest g hkg]
      · rw [assocFind_cons_neg k v _ g hkg, assocFind_cons_neg k v rest g hkg,
          ih hndrest]

lemma keys_moveOne_sublist (src dst : List (ℤ × String)) (f : ℤ) :
    (((moveOne (src, dst) f).1).map Prod.fst).Sublist (src.map Prod.fst) := by
  unfold moveOne
  cases assocFind src f with
  | some c => exact keys_removeKey_sublist src f
  | none => exact List.Sublist.refl _

lemma assocFind_singleton (f : ℤ) (c : String) (g : ℤ) :
    assocFind [(f, c)] g = if g = f then some c else none := by
  by_cases hg : g = f
  · rw [if_pos hg]
    exact assocFind_cons_pos f c [] g hg.symm
  · rw [if_neg hg]
    exact assocFind_cons_neg f c [] g (fun hh => hg hh.symm)

lemma keys_moveOne_nodup (src dst : List (ℤ × String)) (f : ℤ)
    (hnd : (src.map Prod.fst).Nodup) :
    (((moveOne (src, dst) f).1).map Prod.fst).Nodup :=
  (keys_moveOne_sublist src dst f).nodup hnd

lemma assocFind_moveOne_fst (src dst : List (ℤ × String)) (f g : ℤ)
    (hnd : (src.map Prod.fst).Nodup) :
    assocFind ((moveOne (src, dst) f).1) g =
      if g = f then none else assocFind src g := by
  unfold moveOne
  cases hf : assocFind src f with
  | some c =>
    dsimp only
    exact assocFind_removeKey src f g hnd
  | none =>
    dsimp only
    by_cases hg : g = f
    · rw [if_pos hg, hg]
      exact hf
    · rw [if_neg hg]

lemma assocFind_moveOne_snd (src dst : List (ℤ × String)) (f g : ℤ) :
    assocFind ((moveOne (src, dst) f).2) g =
      oElse (assocFind dst g) (if g = f then assocFind src f else none) := by
  unfold moveOne
  cases hf : assocFind src f with
  | some c =>
    dsimp only
    rw [assocFind_append, assocFind_singleton]
  | none =>
    dsimp only
    rw [ite_self, oElse_none_right]

lemma moveAll_cons (sd : List (ℤ × String) × List (ℤ × String)) (a : ℤ)
    (fs : List ℤ) : moveAll sd (a :: fs) = moveAll (moveOne sd a) fs := rfl

lemma assocFind_moveAll_fst (frames : List ℤ) (src dst : List (ℤ × String)) (g : ℤ)
    (hnd : (src.map Prod.fst).Nodup) :
    assocFind ((moveAll (src, dst) frames).1) g =
      if g ∈ frames then none else assocFind src g := by
  induction frames generalizing src dst with
  | nil => simp [moveAll]
  | cons a fs ih =>
    rw [moveAll_cons]
    have hnd' := keys_moveOne_nodup src dst a hnd
    have hpair : moveOne (src, dst) a =
        ((moveOne (src, dst) a).1, (moveOne (src, dst) a).2) := rfl
    rw [hpair, ih _ _ hnd', assocFind_moveOne_fst src dst a g hnd]
    by_cases hga : g = a <;> by_cases hgf : g ∈ fs <;>
      simp [hga, hgf, List.mem_cons]

lemma assocFind_moveAll_snd (frames : List ℤ) (src dst : List (ℤ × String)) (g : ℤ)
    (hnd : (src.map Prod.fst).Nodup) (hfr : frames.Nodup) :
    assocFind ((moveAll (src, dst) frames).2) g =
      oElse (assocFind dst g) (if g ∈ frames then assocFind src g else none) := by
  induction frames generalizing src dst with
  | nil => simp [moveAll, oElse_none_right]
  | cons a fs ih =>
    rw [List.nodup_cons] at hfr
    obtain ⟨hanotin, hfs⟩ := hfr
    rw [moveAll_cons]
    have hnd' := keys_moveOne_nodup src dst a hnd
    have hpair : moveOne (src, dst) a =
        ((moveOne (src, dst) a).1, (moveOne (src, dst) a).2) := rfl
    rw [hpair, ih _ _ hnd' hfs, assocFind_moveOne_snd src dst a g,
      assocFind_moveOne_fst src dst a g hnd]
    by_cases hga : g = a
    · have hgfs : g ∉ fs := by rw [hga]; exact hanotin
      simp only [if_pos hga, if_neg hgfs, List.mem_cons, hga, true_or, if_pos,
        oElse_none_right]
      rw [ite_self, oElse_none_right]
    · by_cases hgf : g ∈ fs
      · have hmem : g ∈ a :: fs := List.mem_cons_of_mem a hgf
        rw [if_neg hga, if_pos hgf, if_neg hga, if_pos hmem, oElse_none_right]
      · have hmem : g ∉ a :: fs := by
          rw [List.mem_cons]
          push_neg
          exact ⟨hga, hgf⟩
        rw [if_neg hga, if_neg hgf, if_neg hmem, oElse_none_right, oElse_none_right]

lemma oElse_none_left (b : Option String) : oElse none b = b := rfl

lemma keys_moveAll_nodup (frames : List ℤ) (src dst : List (ℤ × String))
    (hnd : (src.map Prod.fst).Nodup) :
    (((moveAll (src, dst) frames).1).map Prod.fst).Nodup := by
  induction frames generalizing src dst with
  | nil => simpa [moveAll] using hnd
  | cons a fs ih =>
    rw [moveAll_cons]
    have hpair : moveOne (src, dst) a =
        ((moveOne (src, dst) a).1, (moveOne (src, dst) a).2) := rfl
    rw [hpair]
    exact ih _ _ (keys_moveOne_nodup src dst a hnd)

/-- the fields of `process_sequence_model` when at least one label file was
generated (no early return). -/
lemma psm_eq (imgs : List ℤ) (staged : List (ℤ × String)) (hne : staged ≠ []) :
    process_sequence_model imgs staged =
      { trainImgs := (chronoSplit imgs).1,
        validImgs := (chronoSplit imgs).2.1,
        testImgs := (chronoSplit imgs).2.2,
        trainLabels := (moveAll ((moveAll (staged, []) (chronoSplit imgs).2.1).1, [])
          (chronoSplit imgs).2.2).1,
        validLabels := (moveAll (staged, []) (chronoSplit imgs).2.1).2,
        testLabels := (moveAll ((moveAll (staged, []) (chronoSplit imgs).2.1).1, [])
          (chronoSplit imgs).2.2).2 } := by
  cases staged with
  | nil => exact absurd rfl hne
  | cons p ps => rfl

lemma chronoSplit_disjoint (imgs : List ℤ) (himg : imgs.Nodup) (f : ℤ) :
    ¬(f ∈ (chronoSplit imgs).1 ∧ f ∈ (chronoSplit imgs).2.1) ∧
    ¬(f ∈ (chronoSplit imgs).1 ∧ f ∈ (chronoSplit imgs).2.2) ∧
    ¬(f ∈ (chronoSplit imgs).2.1 ∧ f ∈ (chronoSplit imgs).2.2) := by
  have hl : ((chronoSplit imgs).1 ++ ((chronoSplit imgs).2.1 ++
      (chronoSplit imgs).2.2)).Nodup := by
    rw [← List.append_assoc, chronoSplit_append imgs]
    exact himg
  rw [List.nodup_append] at hl
  obtain ⟨h1, h23, hdisj1⟩ := hl
  rw [List.nodup_append] at h23
  obtain ⟨h2, h3, hdisj23⟩ := h23
  exact ⟨fun ⟨ha1, ha2⟩ => hdisj1 ha1 (List.mem_append_left _ ha2),
    fun ⟨ha1, ha3⟩ => hdisj1 ha1 (List.mem_append_right _ ha3),
    fun ⟨ha2, ha3⟩ => hdisj23 ha2 ha3⟩

/-- lookup characterization of the three label directories after
`process_sequence` finished distributing a nonempty staged label set. -/
lemma psm_label_find (imgs : List ℤ) (staged : List (ℤ × String))
    (himg : imgs.Nodup) (hkeys : (staged.map Prod.fst).Nodup)
    (hne : staged ≠ []) (f : ℤ) :
    assocFind (process_sequence_model imgs staged).validLabels f =
      (if f ∈ (chronoSplit imgs).2.1 then assocFind staged f else none) ∧
    assocFind (process_sequence_model imgs staged).testLabels f =
      (if f ∈ (chronoSplit imgs).2.2 then
        (if f ∈ (chronoSplit imgs).2.1 then none else assocFind staged f) else none) ∧
    assocFind (process_sequence_model imgs staged).trainLabels f =
      (if f ∈ (chronoSplit imgs).2.2 then none
       else if f ∈ (chronoSplit imgs).2.1 then none else assocFind staged f) := by
  rw [psm_eq imgs staged hne]
  dsimp only
  have hvnd : (chronoSplit imgs).2.1.Nodup :=
    (List.take_sublist _ _).nodup ((List.drop_sublist _ _).nodup himg)
  have hafter : (((moveAll (staged, []) (chronoSplit imgs).2.1).1).map Prod.fst).Nodup :=
    keys_moveAll_nodup _ staged [] hkeys
  have htnd : (chronoSplit imgs).2.2.Nodup := (List.drop_sublist _ _).nodup himg
  refine ⟨?_, ?_, ?_⟩
  · rw [assocFind_moveAll_snd _ staged [] f hkeys hvnd]
    rfl
  · have hpair : ((moveAll (staged, []) (chronoSplit imgs).2.1).1, ([] : List (ℤ × String))) =
        ((moveAll (staged, []) (chronoSplit imgs).2.1).1, []) := rfl
    rw [assocFind_moveAll_snd _ _ [] f hafter htnd]
    rw [show assocFind ([] : List (ℤ × String)) f = none from rfl, oElse_none_left]
    by_cases ht : f ∈ (chronoSplit imgs).2.2
    · rw [if_pos ht, if_pos ht, assocFind_moveAll_fst _ staged [] f hkeys]
    · rw [if_neg ht, if_neg ht]
  · rw [assocFind_moveAll_fst _ _ [] f hafter]
    by_cases ht : f ∈ (chronoSplit imgs).2.2
    · rw [if_pos ht, if_pos ht]
    · rw [if_neg ht, if_neg ht, assocFind_moveAll_fst _ staged [] f hkeys]

/-- C7 amended (canonical pipeline): once at least one label file was
generated, `process_sequence` copies the frames into three disjoint splits
covering the whole sequence, and the staged label of a frame ends up in the
labels directory of exactly the split that received that frame's image —
never in another split's labels directory. -/
theorem C7_label_image_colocation_amended (imgs : List ℤ)
    (staged : List (ℤ × String)) (himg : imgs.Nodup)
    (hkeys : (staged.map Prod.fst).Nodup) (hne : staged ≠ []) :
    ((process_sequence_model imgs staged).trainImgs ++
      (process_sequence_model imgs staged).validImgs ++
      (process_sequence_model imgs staged).testImgs = imgs) ∧
    (∀ f : ℤ,
      ¬(f ∈ (process_sequence_model imgs staged).trainImgs ∧
        f ∈ (process_sequence_model imgs staged).validImgs) ∧
      ¬(f ∈ (process_sequence_model imgs staged).trainImgs ∧
        f ∈ (process_sequence_model imgs staged).testImgs) ∧
      ¬(f ∈ (process_sequence_model imgs staged).validImgs ∧
        f ∈ (process_sequence_model imgs staged).testImgs)) ∧
    (∀ (f : ℤ) (c : String), assocFind staged f = some c →
      (f ∈ (process_sequence_model imgs staged).trainImgs →
        assocFind (process_sequence_model imgs staged).trainLabels f = some c ∧
        assocFind (process_sequence_model imgs staged).validLabels f = none ∧
        assocFind (process_sequence_model imgs staged).testLabels f = none) ∧
      (f ∈ (process_sequence_model imgs staged).validImgs →
        assocFind (process_sequence_model imgs staged).validLabels f = some c ∧
        assocFind (process_sequence_model imgs staged).trainLabels f = none ∧
        assocFind (process_sequence_model imgs staged).testLabels f = none) ∧
      (f ∈ (process_sequence_model imgs staged).testImgs →
        assocFind (process_sequence_model imgs staged).testLabels f = some c ∧
        assocFind (process_sequence_model imgs staged).trainLabels f = none ∧
        assocFind (process_sequence_model imgs staged).validLabels f = none)) := by
  have himgfields : (process_sequence_model imgs staged).trainImgs = (chronoSplit imgs).1 ∧
      (process_sequence_model imgs staged).validImgs = (chronoSplit imgs).2.1 ∧
      (process_sequence_model imgs staged).testImgs = (chronoSplit imgs).2.2 := by
    rw [psm_eq imgs staged hne]
    exact ⟨rfl, rfl, rfl⟩
  obtain ⟨hti, hvi, htei⟩ := himgfields
  refine ⟨?_, ?_, ?_⟩
  · rw [hti, hvi, htei]
    exact chronoSplit_append imgs
  · intro f
    rw [hti, hvi, htei]
    exact chronoSplit_disjoint imgs himg f
  · intro f c hfc
    obtain ⟨hfindv, hfindt, hfindtr⟩ := psm_label_find imgs staged himg hkeys hne f
    rw [hti, hvi, htei]
    obtain ⟨hd12, hd13, hd23⟩ := chronoSplit_disjoint imgs himg f
    refine ⟨?_, ?_, ?_⟩
    · intro htr
      have hnv : f ∉ (chronoSplit imgs).2.1 := fun hv => hd12 ⟨htr, hv⟩
      have hnt : f ∉ (chronoSplit imgs).2.2 := fun ht => hd13 ⟨htr, ht⟩
      rw [hfindtr, if_neg hnt, if_neg hnv]
      rw [hfindv, if_neg hnv]
      rw [hfindt, if_neg hnt]
      exact ⟨hfc, rfl, rfl⟩
    · intro hv
      have hnt : f ∉ (chronoSplit imgs).2.2 := fun ht => hd23 ⟨hv, ht⟩
      rw [hfindv, if_pos hv, hfindtr, if_neg hnt, if_pos hv, hfindt, if_neg hnt]
      exact ⟨hfc, rfl, rfl⟩
    · intro ht
      have hnv : f ∉ (chronoSplit imgs).2.1 := fun hv => hd23 ⟨hv, ht⟩
      rw [hfindt, if_pos ht, if_neg hnv, hfindtr, if_pos ht, hfindv, if_neg hnv]
      exact ⟨hfc, rfl, rfl⟩

/-- witness for C7 amended on a concrete 10-frame sequence with labels for
frames 0 (train), 7 (valid) and 9 (test): `int(10*0.7) = 7`,
`int(10*0.1) = 1`, so valid is `[7]` and test `[8, 9]`. -/
theorem C7_label_image_colocation_amended_witness :
    assocFind (process_sequence_model [0, 1, 2, 3, 4, 5, 6, 7, 8, 9]
      [(0, "A"), (7, "B"), (9, "C")]).trainLabels 0 = some "A" ∧
    assocFind (process_sequence_model [0, 1, 2, 3, 4, 5, 6, 7, 8, 9]
      [(0, "A"), (7, "B"), (9, "C")]).validLabels 0 = none ∧
    assocFind (process_sequence_model [0, 1, 2, 3, 4, 5, 6, 7, 8, 9]
      [(0, "A"), (7, "B"), (9, "C")]).validLabels 7 = some "B" ∧
    assocFind (process_sequence_model [0, 1, 2, 3, 4, 5, 6, 7, 8, 9]
      [(0, "A"), (7, "B"), (9, "C")]).testLabels 9 = some "C" := by
  have h := C7_label_image_colocation_amended [0, 1, 2, 3, 4, 5, 6, 7, 8, 9]
    [(0, "A"), (7, "B"), (9, "C")] (by decide) (by decide) (by decide)
  have h0 := (h.2.2 0 "A" (by decide)).1 (by decide)
  have h7 := (h.2.2 7 "B" (by decide)).2.1 (by decide)
  have h9 := (h.2.2 9 "C" (by decide)).2.2 (by decide)
  exact ⟨h0.1, h0.2.1, h7.1, h9.1⟩

/-- `SPLIT_RATIO = 1` of `split.py` (the comment claims 80/20 but the value
is 1, so `split_idx = int(len(img_list) * 1) = len(img_list)`). -/
def SPLIT_RATIO : ℕ := 1

/-- final placement of `split.py`'s `process_sequence`: images are
shuffled (the model receives the already-shuffled order) and sliced at
`split_idx`; the slice named `train_imgs` is copied into the directory
`test/images` and the rest into `valid/images`; then
`convert_gt_to_yolo_format` is called twice with the same ground truth,
writing the full label set (`labels`) into `test/labels` and again into
`valid/labels` (lines 183-191). -/
structure SplitPyResult where
  testImgs : List ℤ
  validImgs : List ℤ
  testLabels : List (ℤ × String)
  validLabels : List (ℤ × String)

/-- `process_sequence` of `split.py` after the presence checks. -/
def splitPy_process_sequence (imgs : List ℤ) (labels : List (ℤ × String)) :
    SplitPyResult :=
  let split_idx := imgs.length * SPLIT_RATIO
  { testImgs := imgs.take split_idx,
    validImgs := imgs.drop split_idx,
    testLabels := labels,
    validLabels := labels }

/-- C7 counterexample (`split.py`): a one-frame sequence with one label gets
its image only into the `test` split, yet its label file content is written
into both the `test` and the `valid` labels directories, so a frame's label
content appears under more than one split and under a split that did not
receive the frame's image. -/
theorem C7_label_image_colocation_counterexample :
    (splitPy_process_sequence [1] [(1, "L")]).testImgs = [1] ∧
    (splitPy_process_sequence [1] [(1, "L")]).validImgs = [] ∧
    (1, "L") ∈ (splitPy_process_sequence [1] [(1, "L")]).testLabels ∧
    (1, "L") ∈ (splitPy_process_sequence [1] [(1, "L")]).validLabels := by
  refine ⟨rfl, rfl, by decide, by decide⟩

/-- C9 amended: when zero label files were generated the whole distribution
is skipped and no image is copied at all; when at least one label exists,
every frame's image is copied into its split, labels present in the valid
or test directories come only from staged label files (a move happens only
if the staged file exists), and the absence of a staged label for a frame
does not prevent its image from being copied. -/
theorem C9_image_copy_amended (imgs : List ℤ) (staged : List (ℤ × String))
    (himg : imgs.Nodup) (hkeys : (staged.map Prod.fst).Nodup) :
    (staged = [] →
      (process_sequence_model imgs staged).trainImgs = [] ∧
      (process_sequence_model imgs staged).validImgs = [] ∧
      (process_sequence_model imgs staged).testImgs = []) ∧
    (staged ≠ [] →
      ((process_sequence_model imgs staged).trainImgs ++
        (process_sequence_model imgs staged).validImgs ++
        (process_sequence_model imgs staged).testImgs = imgs) ∧
      (∀ f : ℤ, assocFind (process_sequence_model imgs staged).validLabels f ≠ none →
        assocFind staged f ≠ none) ∧
      (∀ f : ℤ, assocFind (process_sequence_model imgs staged).testLabels f ≠ none →
        assocFind staged f ≠ none) ∧
      (∀ f : ℤ, f ∈ imgs → assocFind staged f = none →
        f ∈ (process_sequence_model imgs staged).trainImgs ∨
        f ∈ (process_sequence_model imgs staged).validImgs ∨
        f ∈ (process_sequence_model imgs staged).testImgs)) := by
  constructor
  · intro hempty
    subst hempty
    exact ⟨rfl, rfl, rfl⟩
  · intro hne
    have himgfields : (process_sequence_model imgs staged).trainImgs =
        (chronoSplit imgs).1 ∧
        (process_sequence_model imgs staged).validImgs = (chronoSplit imgs).2.1 ∧
        (process_sequence_model imgs staged).testImgs = (chronoSplit imgs).2.2 := by
      rw [psm_eq imgs staged hne]
      exact ⟨rfl, rfl, rfl⟩
    obtain ⟨hti, hvi, htei⟩ := himgfields
    have hcat : (process_sequence_model imgs staged).trainImgs ++
        (process_sequence_model imgs staged).validImgs ++
        (process_sequence_model imgs staged).testImgs = imgs := by
      rw [hti, hvi, htei]
      exact chronoSplit_append imgs
    refine ⟨hcat, ?_, ?_, ?_⟩
    · intro f hv
      obtain ⟨hfindv, _, _⟩ := psm_label_find imgs staged himg hkeys hne f
      rw [hfindv] at hv
      by_cases hmem : f ∈ (chronoSplit imgs).2.1
      · rw [if_pos hmem] at hv
        exact hv
      · rw [if_neg hmem] at hv
        exact absurd rfl hv
    · intro f ht
      obtain ⟨_, hfindt, _⟩ := psm_label_find imgs staged himg hkeys hne f
      rw [hfindt] at ht
      by_cases hmem : f ∈ (chronoSplit imgs).2.2
      · rw [if_pos hmem] at ht
        by_cases hmemv : f ∈ (chronoSplit imgs).2.1
        · rw [if_pos hmemv] at ht
          exact absurd rfl ht
        · rw [if_neg hmemv] at ht
          exact ht
      · rw [if_neg hmem] at ht
        exact absurd rfl ht
    · intro f hf _
      have : f ∈ (process_sequence_model imgs staged).trainImgs ++
          (process_sequence_model imgs staged).validImgs ++
          (process_sequence_model imgs staged).testImgs := by
        rw [hcat]
        exact hf
      rw [List.mem_append, List.mem_append] at this
      rcases this with (h | h) | h
      · exact Or.inl h
      · exact Or.inr (Or.inl h)
      · exact Or.inr (Or.inr h)

/-- witness for C9 amended on the 10-frame sequence: frame 3 has no staged
label yet its image is still copied (into train). -/
theorem C9_image_copy_amended_witness :
    (3 : ℤ) ∈ (process_sequence_model [0, 1, 2, 3, 4, 5, 6, 7, 8, 9]
      [(0, "A")]).trainImgs ∨
    (3 : ℤ) ∈ (process_sequence_model [0, 1, 2, 3, 4, 5, 6, 7, 8, 9]
      [(0, "A")]).validImgs ∨
    (3 : ℤ) ∈ (process_sequence_model [0, 1, 2, 3, 4, 5, 6, 7, 8, 9]
      [(0, "A")]).testImgs :=
  ((C9_image_copy_amended [0, 1, 2, 3, 4, 5, 6, 7, 8, 9] [(0, "A")]
    (by decide) (by decide)).2 (by decide)).2.2.2 3 (by decide) (by decide)

/-- C9 counterexample: a sequence whose ground truth yields zero label
files (`num_generated_labels == 0`) is abandoned before image
distribution — frame 1 is in the sequence, yet no split receives its
image. -/
theorem C9_zero_labels_counterexample :
    (1 : ℤ) ∈ ([1] : List ℤ) ∧
    (process_sequence_model [1] []).trainImgs = [] ∧
    (process_sequence_model [1] []).validImgs = [] ∧
    (process_sequence_model [1] []).testImgs = [] :=
  ⟨by decide, rfl, rfl, rfl⟩

/-- Python `f"{i:06d}"`: minimum width six counting the sign, zero padded;
wider numbers are rendered unpadded. -/
def pad6I (i : ℤ) : String :=
  if i < 0 then "-" ++ padZeros 5 (-i).toNat else padZeros 6 i.toNat

/-- image filename written by `faster_split.py`:
`f"{snmot_name}_{img_path.name}"`. -/
def prefixedImageName (snmot imgName : String) : String :=
  snmot ++ "_" ++ imgName

/-- label filename written by `faster_split.py`:
`f"{snmot_name}_{frame_id:06d}.txt"`. -/
def prefixedLabelName (snmot : String) (frameId : ℤ) : String :=
  snmot ++ "_" ++ pad6I frameId ++ ".txt"

/-- label filename written by `split.py`'s `convert_gt_to_yolo_format`
(lines 145-149): `f"{frame_id:06d}.txt"` — the sequence name is a parameter
of the function but is not part of the filename. -/
def splitPyLabelFileName (_snmot_name : String) (frameId : ℤ) : String :=
  pad6I frameId ++ ".txt"

/-- image filename written by `split.py` (line 185): `shutil.copy(img, dir)`
keeps the original basename, with no sequence prefix. -/
def splitPyImageTargetName (imgName : String) : String := imgName

/-- a string containing no underscore (true of every sequence name the
pipeline processes: the `ID_MAPPINGS` keys are all of the form SNMOT-xxx). -/
def noUnderscore (s : String) : Prop := '_' ∉ s.data

instance noUnderscoreDecidable (s : String) : Decidable (noUnderscore s) :=
  inferInstanceAs (Decidable ('_' ∉ s.data))

lemma underscore_split_inj (a : List Char) : ∀ (b u v : List Char),
    '_' ∉ a → '_' ∉ b → a ++ '_' :: u = b ++ '_' :: v → a = b ∧ u = v := by
  induction a with
  | nil =>
    intro b u v _ hb h
    cases b with
    | nil =>
      rw [List.nil_append, List.nil_append] at h
      injection h with _ h2
      exact ⟨rfl, h2⟩
    | cons c bs =>
      rw [List.nil_append, List.cons_append] at h
      injection h with h1 _
      exact absurd (h1 ▸ List.mem_cons_self c bs) hb
  | cons c as ih =>
    intro b u v ha hb h
    cases b with
    | nil =>
      rw [List.cons_append, List.nil_append] at h
      injection h with h1 _
      exact absurd (h1.symm ▸ List.mem_cons_self c as) ha
    | cons d bs =>
      rw [List.cons_append, List.cons_append] at h
      injection h with hcd htail
      have ha' : '_' ∉ as := fun hmem => ha (List.mem_cons_of_mem c hmem)
      have hb' : '_' ∉ bs := fun hmem => hb (List.mem_cons_of_mem d hmem)
      obtain ⟨habs, huv⟩ := ih bs u v ha' hb' htail
      exact ⟨by rw [hcd, habs], huv⟩

lemma prefixedImageName_data (s n : String) :
    (prefixedImageName s n).data = s.data ++ '_' :: n.data := by
  unfold prefixedImageName
  rw [String.data_append, String.data_append,
    show ("_" : String).data = ['_'] from rfl, List.append_assoc]
  rfl

lemma prefixedLabelName_data (s : String) (f : ℤ) :
    (prefixedLabelName s f).data =
      s.data ++ '_' :: ((pad6I f).data ++ (".txt" : String).data) := by
  unfold prefixedLabelName
  rw [String.data_append, String.data_append, String.data_append,
    show ("_" : String).data = ['_'] from rfl]
  simp [List.append_assoc]

/-- C8 amended: for the canonical `faster_split.py` naming scheme, two
distinct underscore-free sequence names (as all `ID_MAPPINGS` keys are)
never produce the same image filename or the same label filename, whatever
the original image names and frame ids are. -/
theorem C8_filename_disjointness_amended (s1 s2 n1 n2 : String) (f1 f2 : ℤ)
    (hne : s1 ≠ s2) (h1 : noUnderscore s1) (h2 : noUnderscore s2) :
    prefixedImageName s1 n1 ≠ prefixedImageName s2 n2 ∧
    prefixedLabelName s1 f1 ≠ prefixedLabelName s2 f2 := by
  constructor
  · intro heq
    have hdata := congrArg String.data heq
    rw [prefixedImageName_data, prefixedImageName_data] at hdata
    exact hne (String.ext (underscore_split_inj s1.data s2.data n1.data n2.data
      h1 h2 hdata).1)
  · intro heq
    have hdata := congrArg String.data heq
    rw [prefixedLabelName_data, prefixedLabelName_data] at hdata
    exact hne (String.ext (underscore_split_inj s1.data s2.data _ _ h1 h2 hdata).1)

/-- witness for C8 amended at two real sequence names. -/
theorem C8_filename_disjointness_amended_witness :
    prefixedImageName "SNMOT-060" "000001.jpg" ≠
      prefixedImageName "SNMOT-061" "000001.jpg" ∧
    prefixedLabelName "SNMOT-060" 1 ≠ prefixedLabelName "SNMOT-061" 1 :=
  C8_filename_disjointness_amended "SNMOT-060" "SNMOT-061" "000001.jpg" "000001.jpg"
    1 1 (by decide) (by decide) (by decide)

/-- C8 counterexample: `split.py` writes label files without the sequence
prefix, so two distinct sequences sharing a game id write the same label
filename (and `shutil.copy` keeps the unprefixed image basename too). -/
theorem C8_filename_disjointness_counterexample :
    ("SNMOT-116" : String) ≠ "SNMOT-117" ∧
    splitPyLabelFileName "SNMOT-116" 1 = splitPyLabelFileName "SNMOT-117" 1 ∧
    splitPyImageTargetName "000001.jpg" = splitPyImageTargetName "000001.jpg" := by
  refine ⟨by decide, rfl, rfl⟩

/-- the main loop of `faster_split.py` (lines 429-435): sequence directories
whose name is not a key of `ID_MAPPINGS` are skipped with `continue` before
`process_sequence` is called; only the filtered names are processed. -/
def mainSequences (dirs : List String) : List String :=
  dirs.filter (fun d => (assocFind ID_MAPPINGS d).isSome)

/-- C10: a sequence directory whose name is not in `ID_MAPPINGS` is never
processed by the main loop — no output is produced for it — even though the
class resolver alone would have defaulted all of its track ids to player
(0). -/
theorem C10_unmapped_sequence_skipped (dirs : List String) (name : String)
    (h : assocFind ID_MAPPINGS name = none) :
    name ∉ mainSequences dirs ∧
    (∀ tid : ℤ, get_class_from_track_id_fast ID_MAPPINGS name tid = 0) := by
  constructor
  · intro hmem
    unfold mainSequences at hmem
    rw [List.mem_filter] at hmem
    rw [h] at hmem
    exact absurd hmem.2 (by simp)
  · intro tid
    rw [fast_eq_priority]
    unfold classListsOf
    rw [h]
    simp

/-- witness for C10: SNMOT-100 is not one of the 18 mapped sequences, so it
is skipped by the loop and its track ids all resolve to player. -/
theorem C10_unmapped_sequence_skipped_witness :
    "SNMOT-100" ∉ mainSequences ["SNMOT-060", "SNMOT-100"] ∧
    get_class_from_track_id_fast ID_MAPPINGS "SNMOT-100" 5 = 0 :=
  ⟨(C10_unmapped_sequence_skipped ["SNMOT-060", "SNMOT-100"] "SNMOT-100"
      (by decide)).1,
   (C10_unmapped_sequence_skipped ["SNMOT-060", "SNMOT-100"] "SNMOT-100"
      (by decide)).2 5⟩
